import Mathlib

/-!
# ORB_SLAM2 ROS RGB-D node (`Examples/ROS/ORB_SLAM2/src/ros_rgbd.cc`)

A shallow embedding of `ImageGrabber::GrabRGBD`: the callback that decodes a
synchronised colour/depth pair, hands it to the tracking engine, converts the
returned 4x4 pose into a `geometry_msgs::PoseStamped` and publishes the pose
together with re-stamped copies of the two images.

Numbers are taken in an arbitrary field `K`, so that every definition can be run on
`ℚ` and the theorems about the quaternion can be read over `ℝ` with `Real.sqrt`.
Rounding of `float`/`double` arithmetic is not part of the model.  The library
constructor `Eigen::Quaternionf(rotation)` is an argument of the callback; the
four-case conversion it performs is `fromRotationMatrix`.
-/

namespace RosRgbd

/-! ## Message types -/

/-- The `ros::Time` pair of seconds and nanoseconds. -/
structure Time where
  sec : Nat
  nsec : Nat
deriving DecidableEq

/-- The conversion `ros::Time::toSec()`: seconds plus `1e-9` times nanoseconds. -/
def Time.toSec {K : Type} [Field K] (t : Time) : K :=
  (t.sec : K) + (t.nsec : K) / 1000000000

/-- The `std_msgs::Header` of a message. -/
structure Header where
  seq : Nat
  stamp : Time
  frame_id : String
deriving DecidableEq

/-- The `sensor_msgs::Image` message. -/
structure Image where
  header : Header
  height : Nat
  width : Nat
  encoding : String
  is_bigendian : Nat
  step : Nat
  data : List Nat
deriving DecidableEq

/-- The `geometry_msgs::Point` message. -/
structure Point (K : Type) where
  x : K
  y : K
  z : K
deriving DecidableEq

/-- The `geometry_msgs::Quaternion` message. -/
structure QuaternionMsg (K : Type) where
  x : K
  y : K
  z : K
  w : K
deriving DecidableEq

/-- The `geometry_msgs::Pose` message. -/
structure Pose (K : Type) where
  position : Point K
  orientation : QuaternionMsg K
deriving DecidableEq

/-- The `geometry_msgs::PoseStamped` message. -/
structure PoseStamped (K : Type) where
  header : Header
  pose : Pose K
deriving DecidableEq

/-- A default-constructed header: zero sequence number, zero time, empty frame id. -/
def Header.init : Header := { seq := 0, stamp := { sec := 0, nsec := 0 }, frame_id := "" }

/-- A default-constructed `sensor_msgs::Image`. -/
def Image.init : Image :=
  { header := Header.init, height := 0, width := 0, encoding := "", is_bigendian := 0,
    step := 0, data := [] }

/-- A default-constructed `geometry_msgs::PoseStamped`. -/
def PoseStamped.init (K : Type) [Zero K] : PoseStamped K :=
  { header := Header.init,
    pose := { position := { x := 0, y := 0, z := 0 },
              orientation := { x := 0, y := 0, z := 0, w := 0 } } }

/-! ## Matrices -/

/-- A two-dimensional `cv::Mat`: its size and its elements.  `elem i j` is only
meaningful for `i < rows` and `j < cols`; an empty matrix has `rows = cols = 0`. -/
structure Mat (α : Type) where
  rows : Nat
  cols : Nat
  elem : Nat → Nat → α

/-- The element access `cv::Mat::at<T>(i, j)`.  The library requires
`i < rows` and `j < cols`; a read outside the matrix has no defined value and is
reported as `none`. -/
def Mat.at {α : Type} (m : Mat α) (i j : Nat) : Option α :=
  if i < m.rows ∧ j < m.cols then some (m.elem i j) else none

/-- The empty `cv::Mat` (no rows, no columns), which the tracking engine returns
when it has no pose for the frame. -/
def Mat.empty (α : Type) [Zero α] : Mat α := { rows := 0, cols := 0, elem := fun _ _ => 0 }

/-- The result of `cv_bridge::toCvShare`: header, encoding and the pixel matrix. -/
structure CvImage where
  header : Header
  encoding : String
  image : Mat Nat

/-- An `Eigen::Matrix3f`, addressed by `coeff(i, j)`. -/
abbrev Matrix3 (K : Type) := Fin 3 → Fin 3 → K

/-- An `Eigen::Quaternionf`; its coefficient vector is stored as `x, y, z, w`. -/
structure Quaternion (K : Type) where
  x : K
  y : K
  z : K
  w : K
deriving DecidableEq

/-- The write `q.coeffs().coeffRef(i) = v` for `i` in `0, 1, 2` (that is `x`, `y`, `z`). -/
def Quaternion.setCoeff {K : Type} (q : Quaternion K) (i : Fin 3) (v : K) : Quaternion K :=
  match i with
  | 0 => { q with x := v }
  | 1 => { q with y := v }
  | 2 => { q with z := v }

/-- Modelled from the spec: the constructor `Eigen::Quaternionf(rotation)` called by
`GrabRGBD` belongs to the Eigen library and its body is not part of the source tree.
This is the standard four-case matrix-to-quaternion algorithm the specification
names: the positive-trace case, and otherwise the case of the largest diagonal
entry `i` (ties resolved toward the smaller index), with `j`, `k` the cyclic
successors of `i`. -/
def fromRotationMatrix {K : Type} [LinearOrderedField K] (sqrt : K → K) (mat : Matrix3 K) :
    Quaternion K :=
  let t := mat 0 0 + mat 1 1 + mat 2 2
  if 0 < t then
    let t1 := sqrt (t + 1)
    let t2 := (1 / 2) / t1
    { w := (1 / 2) * t1,
      x := (mat 2 1 - mat 1 2) * t2,
      y := (mat 0 2 - mat 2 0) * t2,
      z := (mat 1 0 - mat 0 1) * t2 }
  else
    let i0 : Fin 3 := if mat 0 0 < mat 1 1 then 1 else 0
    let i : Fin 3 := if mat i0 i0 < mat 2 2 then 2 else i0
    let j : Fin 3 := i + 1
    let k : Fin 3 := j + 1
    let t1 := sqrt (mat i i - mat j j - mat k k + 1)
    let t2 := (1 / 2) / t1
    let q0 : Quaternion K := { x := 0, y := 0, z := 0, w := 0 }
    let q1 := q0.setCoeff i ((1 / 2) * t1)
    let q2 := { q1 with w := (mat k j - mat j k) * t2 }
    let q3 := q2.setCoeff j ((mat j i + mat i j) * t2)
    q3.setCoeff k ((mat k i + mat i k) * t2)

/-! ## The callback -/

/-- The collaborators of `GrabRGBD` that live outside the file: the decoder
`cv_bridge::toCvShare` (an error stands for a thrown `cv_bridge::Exception` and
carries its message), the tracking engine `mpSLAM->TrackRGBD`, and the clock value
that `ros::Time::now()` returns during the call. -/
structure Env (K : Type) where
  toCvShare : Image → Except String CvImage
  TrackRGBD : Mat Nat → Mat Nat → K → Mat K
  now : Time

/-- The observable actions of one call, in program order. -/
inductive Effect (K : Type) where
  | rosError (what : String)
  | track (imRGB imD : Mat Nat) (timestamp : K)
  | pose_pub (msg : PoseStamped K)
  | rgb_pub (msg : Image)
  | depth_pub (msg : Image)

/-- How a call ends: it returns to the caller, or it reads outside the pose
matrix, after which the program has no defined behaviour. -/
inductive Outcome (K : Type) where
  | returned (trace : List (Effect K))
  | undefinedRead (trace : List (Effect K))

/-- The actions performed before the call ended. -/
def Outcome.trace {K : Type} : Outcome K → List (Effect K)
  | .returned tr => tr
  | .undefinedRead tr => tr

/-- The messages published on the pose channel (`xtion/pose`). -/
def posesOf {K : Type} : List (Effect K) → List (PoseStamped K)
  | [] => []
  | .pose_pub m :: es => m :: posesOf es
  | _ :: es => posesOf es

/-- The messages published on the colour channel (`xtion/rgb`). -/
def rgbOf {K : Type} : List (Effect K) → List Image
  | [] => []
  | .rgb_pub m :: es => m :: rgbOf es
  | _ :: es => rgbOf es

/-- The messages published on the depth channel (`xtion/depth`). -/
def depthOf {K : Type} : List (Effect K) → List Image
  | [] => []
  | .depth_pub m :: es => m :: depthOf es
  | _ :: es => depthOf es

/-- The number of calls made to the tracking engine. -/
def trackCalls {K : Type} : List (Effect K) → Nat
  | [] => 0
  | .track _ _ _ :: es => trackCalls es + 1
  | _ :: es => trackCalls es

/-- The nine reads `pose.at<float>(i, j)` for `i, j < 3` that fill the
`Eigen::Matrix3f rotation`, in row-major order. -/
def readRotation {K : Type} (pose : Mat K) : Option (Matrix3 K) := do
  let r00 ← pose.at 0 0
  let r01 ← pose.at 0 1
  let r02 ← pose.at 0 2
  let r10 ← pose.at 1 0
  let r11 ← pose.at 1 1
  let r12 ← pose.at 1 2
  let r20 ← pose.at 2 0
  let r21 ← pose.at 2 1
  let r22 ← pose.at 2 2
  pure (fun i j =>
    match i, j with
    | 0, 0 => r00 | 0, 1 => r01 | 0, 2 => r02
    | 1, 0 => r10 | 1, 1 => r11 | 1, 2 => r12
    | 2, 0 => r20 | 2, 1 => r21 | 2, 2 => r22)

/-- The block "convert opencv Mat to poseStamped" of `GrabRGBD`: read the rotation,
convert it to a quaternion with the library constructor `Quaternionf`, read the
translation column, set the frame id. -/
def toPoseStamped {K : Type} [Field K] (Quaternionf : Matrix3 K → Quaternion K)
    (pose : Mat K) : Option (PoseStamped K) := do
  let rotation ← readRotation pose
  let q := Quaternionf rotation
  let psd := PoseStamped.init K
  let px ← pose.at 0 3
  let psd := { psd with pose := { psd.pose with position := { psd.pose.position with x := px } } }
  let py ← pose.at 1 3
  let psd := { psd with pose := { psd.pose with position := { psd.pose.position with y := py } } }
  let pz ← pose.at 2 3
  let psd := { psd with pose := { psd.pose with position := { psd.pose.position with z := pz } } }
  let psd := { psd with pose := { psd.pose with
    orientation := { w := q.w, x := q.x, y := q.y, z := q.z } } }
  pure { psd with header := { psd.header with frame_id := "odom" } }

/-- The block "transfer rgb and depth to xtion node": a fresh image message that
receives the payload fields of `msg` and the frame id `"odom"`. -/
def passthrough (msg : Image) : Image :=
  let im := Image.init
  let im := { im with data := msg.data }
  let im := { im with encoding := msg.encoding }
  let im := { im with header := { im.header with frame_id := "odom" } }
  let im := { im with height := msg.height }
  let im := { im with is_bigendian := msg.is_bigendian }
  let im := { im with step := msg.step }
  { im with width := msg.width }

/-- The callback `ImageGrabber::GrabRGBD(msgRGB, msgD)`, given the library constructor
`Quaternionf` and the collaborators `env`. -/
def GrabRGBD {K : Type} [Field K] (Quaternionf : Matrix3 K → Quaternion K) (env : Env K)
    (msgRGB msgD : Image) : Outcome K :=
  match env.toCvShare msgRGB with
  | .error e => .returned [.rosError ("cv_bridge exception: " ++ e)]
  | .ok cv_ptrRGB =>
    match env.toCvShare msgD with
    | .error e => .returned [.rosError ("cv_bridge exception: " ++ e)]
    | .ok cv_ptrD =>
      let timestamp : K := cv_ptrRGB.header.stamp.toSec
      let pose := env.TrackRGBD cv_ptrRGB.image cv_ptrD.image timestamp
      let called : Effect K := .track cv_ptrRGB.image cv_ptrD.image timestamp
      match toPoseStamped Quaternionf pose with
      | none => .undefinedRead [called]
      | some psd =>
        let rgb_image := passthrough msgRGB
        let depth_image := passthrough msgD
        let current := env.now
        let psd := { psd with header := { psd.header with stamp := current } }
        let rgb_image := { rgb_image with header := { rgb_image.header with stamp := current } }
        let depth_image :=
          { depth_image with header := { depth_image.header with stamp := current } }
        .returned [called, .pose_pub psd, .rgb_pub rgb_image, .depth_pub depth_image]

/-! ## Vocabulary of the statements -/

/-- The upper-left 3x3 block of a pose matrix. -/
def upperLeft3 {K : Type} (pose : Mat K) : Matrix3 K := fun i j => pose.elem i.val j.val

/-- The orientation field a quaternion is written to (`psd.pose.orientation`). -/
def Quaternion.toMsg {K : Type} (q : Quaternion K) : QuaternionMsg K :=
  { x := q.x, y := q.y, z := q.z, w := q.w }

/-- The pose message built from a 4x4 pose, before it is stamped. -/
def poseOf {K : Type} [Field K] (Quaternionf : Matrix3 K → Quaternion K) (pose : Mat K) :
    PoseStamped K :=
  { header := { seq := 0, stamp := { sec := 0, nsec := 0 }, frame_id := "odom" },
    pose := { position := { x := pose.elem 0 3, y := pose.elem 1 3, z := pose.elem 2 3 },
              orientation := (Quaternionf (upperLeft3 pose)).toMsg } }

/-- A call publishes when at least one message appears on one of the three channels. -/
def Publishes {K : Type} (o : Outcome K) : Prop :=
  posesOf o.trace ≠ [] ∨ rgbOf o.trace ≠ [] ∨ depthOf o.trace ≠ []

/-- The determinant of a 3x3 matrix, expanded along the first row. -/
def det3 {K : Type} [Field K] (R : Matrix3 K) : K :=
  R 0 0 * (R 1 1 * R 2 2 - R 1 2 * R 2 1) - R 0 1 * (R 1 0 * R 2 2 - R 1 2 * R 2 0)
    + R 0 2 * (R 1 0 * R 2 1 - R 1 1 * R 2 0)

/-- A proper rotation matrix: the columns are orthonormal and the determinant is one. -/
def IsRotation {K : Type} [Field K] (R : Matrix3 K) : Prop :=
  (∀ i j : Fin 3, R 0 i * R 0 j + R 1 i * R 1 j + R 2 i * R 2 j = if i = j then 1 else 0)
    ∧ det3 R = 1

/-- The rotation matrix of a quaternion, the usual reconstruction
(`Eigen::QuaternionBase::toRotationMatrix`). -/
def toRotationMatrix {K : Type} [Field K] (q : Quaternion K) : Matrix3 K := fun i j =>
  match i, j with
  | 0, 0 => 1 - 2 * (q.y * q.y + q.z * q.z)
  | 0, 1 => 2 * (q.x * q.y - q.w * q.z)
  | 0, 2 => 2 * (q.x * q.z + q.w * q.y)
  | 1, 0 => 2 * (q.x * q.y + q.w * q.z)
  | 1, 1 => 1 - 2 * (q.x * q.x + q.z * q.z)
  | 1, 2 => 2 * (q.y * q.z - q.w * q.x)
  | 2, 0 => 2 * (q.x * q.z - q.w * q.y)
  | 2, 1 => 2 * (q.y * q.z + q.w * q.x)
  | 2, 2 => 1 - 2 * (q.x * q.x + q.y * q.y)

/-- The squared norm of a quaternion. -/
def Quaternion.normSq {K : Type} [Field K] (q : Quaternion K) : K :=
  q.w * q.w + q.x * q.x + q.y * q.y + q.z * q.z

/-- The opposite quaternion, which represents the same rotation. -/
def Quaternion.neg {K : Type} [Field K] (q : Quaternion K) : Quaternion K :=
  { x := -q.x, y := -q.y, z := -q.z, w := -q.w }

/-- The quaternion read back from the orientation field of a pose message. -/
def QuaternionMsg.toQuaternion {K : Type} (o : QuaternionMsg K) : Quaternion K :=
  { x := o.x, y := o.y, z := o.z, w := o.w }

/-- The rotation about the unit axis `u` by an angle whose cosine is `c` and whose sine
is `s` (the Rodrigues formula). -/
def axisAngleMatrix {K : Type} [Field K] (c s : K) (u : Fin 3 → K) : Matrix3 K := fun i j =>
  match i, j with
  | 0, 0 => c + (1 - c) * (u 0 * u 0)
  | 0, 1 => (1 - c) * (u 0 * u 1) - s * u 2
  | 0, 2 => (1 - c) * (u 0 * u 2) + s * u 1
  | 1, 0 => (1 - c) * (u 1 * u 0) + s * u 2
  | 1, 1 => c + (1 - c) * (u 1 * u 1)
  | 1, 2 => (1 - c) * (u 1 * u 2) - s * u 0
  | 2, 0 => (1 - c) * (u 2 * u 0) - s * u 1
  | 2, 1 => (1 - c) * (u 2 * u 1) + s * u 0
  | 2, 2 => c + (1 - c) * (u 2 * u 2)

/-- The axis-angle quaternion of the rotation about the unit axis `u`, given the cosine
`ch` and the sine `sh` of half the angle. -/
def axisAngleQuaternion {K : Type} [Field K] (ch sh : K) (u : Fin 3 → K) : Quaternion K :=
  { x := sh * u 0, y := sh * u 1, z := sh * u 2, w := ch }

/-- The coefficient vector of a quaternion, in the storage order `x, y, z, w`. -/
def Quaternion.coeff {K : Type} (q : Quaternion K) : Fin 4 → K
  | 0 => q.x
  | 1 => q.y
  | 2 => q.z
  | 3 => q.w

/-- The symmetric 4x4 matrix that equals `4 q qᵀ` whenever `R` is the rotation matrix of
the unit quaternion `q` (indices in the order `x, y, z, w`), written in the entries of `R`. -/
def outer4 {K : Type} [Field K] (R : Matrix3 K) : Fin 4 → Fin 4 → K
  | 0, 0 => 1 + R 0 0 - R 1 1 - R 2 2
  | 1, 1 => 1 - R 0 0 + R 1 1 - R 2 2
  | 2, 2 => 1 - R 0 0 - R 1 1 + R 2 2
  | 3, 3 => 1 + R 0 0 + R 1 1 + R 2 2
  | 0, 1 => R 1 0 + R 0 1
  | 1, 0 => R 1 0 + R 0 1
  | 0, 2 => R 2 0 + R 0 2
  | 2, 0 => R 2 0 + R 0 2
  | 1, 2 => R 2 1 + R 1 2
  | 2, 1 => R 2 1 + R 1 2
  | 3, 0 => R 2 1 - R 1 2
  | 0, 3 => R 2 1 - R 1 2
  | 3, 1 => R 0 2 - R 2 0
  | 1, 3 => R 0 2 - R 2 0
  | 3, 2 => R 1 0 - R 0 1
  | 2, 3 => R 1 0 - R 0 1

/-- A square-root function that is exact on the positive numbers. -/
def ExactSqrt {K : Type} [LinearOrderedField K] (sqrt : K → K) : Prop :=
  ∀ x, 0 < x → 0 < sqrt x ∧ sqrt x * sqrt x = x

/-! ## The stream synchronizer -/

/-- Modelled from the spec: the identifier of an inbound stream (the synchronizer and its
data are not in the source); `A` is the primary (colour) stream, `B` the depth stream. -/
inductive StreamId where
  | A
  | B
deriving DecidableEq

/-- Modelled from the spec: the `Frame` entity of the data model, as the synchronizer
(not in the source) receives it, with its capture time in seconds. -/
structure Frame where
  stream_id : StreamId
  timestamp : ℚ
  width : Nat
  height : Nat
  byte_stride : Nat
  pixel_encoding : String
  endianness : Bool
  raw_bytes : List Nat
deriving DecidableEq

/-- Modelled from the spec: the `SynchronizedPair` entity emitted by the synchronizer
(not in the source): one frame of each stream, the primary frame giving the time. -/
structure SynchronizedPair where
  frame_a : Frame
  frame_b : Frame
  match_timestamp : ℚ
deriving DecidableEq

/-- Modelled from the spec: the pending buffers of the synchronizer (not in the source),
one per stream, each ordered by timestamp. -/
structure SyncState where
  buffer_a : List Frame
  buffer_b : List Frame

/-- The queue size that `main` passes to the synchronisation policy (`sync_pol(10)`). -/
def queueSize : Nat := 10

/-- Modelled from the spec: the search of a buffer for "the frame minimizing
`|t_x − t_y|`", the earliest buffered frame winning a tie.  The pairing algorithm
is the `message_filters` policy instantiated in `main`; its body is not in the source. -/
def closest (t : ℚ) : List Frame → Option Frame
  | [] => none
  | f :: fs =>
    match closest t fs with
    | none => some f
    | some g => if |t - f.timestamp| ≤ |t - g.timestamp| then some f else some g

/-- Modelled from the spec: a buffer is kept "ordered by timestamp"; a new frame goes
behind the buffered frames that are not later than it.  The buffers belong to the
`message_filters` synchronizer, whose body is not in the source. -/
def insertByTime (f : Frame) : List Frame → List Frame
  | [] => [f]
  | g :: gs => if g.timestamp ≤ f.timestamp then g :: insertByTime f gs else f :: g :: gs

/-- Modelled from the spec: the "buffer-depth limit (oldest-first eviction)" of the
synchronizer, whose body is not in the source: only the `depth` latest frames stay. -/
def evictToDepth (depth : Nat) (buf : List Frame) : List Frame :=
  buf.drop (buf.length - depth)

/-- Modelled from the spec: the contract `offer(stream_id, Frame)` of the synchronizer
(the `message_filters` policy that `main` instantiates; its body is not in the source).
The buffer of the other stream is searched for the frame closest in time; when the
difference is within `tolerance` a pair is emitted, both frames leave the buffers
together with the frames older than them; otherwise the offered frame is buffered
and the oldest frame is evicted once the buffer exceeds `depth`. -/
def offer (tolerance : ℚ) (depth : Nat) (st : SyncState) (sid : StreamId) (f : Frame) :
    SyncState × Option SynchronizedPair :=
  let own := match sid with
    | .A => st.buffer_a
    | .B => st.buffer_b
  let other := match sid with
    | .A => st.buffer_b
    | .B => st.buffer_a
  let buffered : SyncState := match sid with
    | .A => { st with buffer_a := evictToDepth depth (insertByTime f own) }
    | .B => { st with buffer_b := evictToDepth depth (insertByTime f own) }
  match closest f.timestamp other with
  | none => (buffered, none)
  | some g =>
    if |f.timestamp - g.timestamp| ≤ tolerance then
      let own1 := own.filter (fun h => f.timestamp ≤ h.timestamp)
      let other1 := (other.erase g).filter (fun h => g.timestamp ≤ h.timestamp)
      match sid with
      | .A => ({ buffer_a := own1, buffer_b := other1 },
               some { frame_a := f, frame_b := g, match_timestamp := f.timestamp })
      | .B => ({ buffer_a := other1, buffer_b := own1 },
               some { frame_a := g, frame_b := f, match_timestamp := g.timestamp })
    else (buffered, none)

/-- Modelled from the spec: the pairs emitted while a sequence of offers is fed to the
synchronizer one at a time (the transport that drives it is not in the source). -/
def runOffers (tolerance : ℚ) (depth : Nat) :
    SyncState → List (StreamId × Frame) → List SynchronizedPair
  | _, [] => []
  | st, (sid, f) :: rest =>
    match offer tolerance depth st sid f with
    | (st1, none) => runOffers tolerance depth st1 rest
    | (st1, some p) => p :: runOffers tolerance depth st1 rest

/-- Modelled from the spec: the synchronizer (not in the source) before any frame has
arrived, with both buffers empty. -/
def SyncState.init : SyncState := { buffer_a := [], buffer_b := [] }

/-! ## Sample inputs -/

/-- A colour frame stamped `1.000 s`. -/
def sampleRGB : Image :=
  { header := { seq := 7, stamp := { sec := 1, nsec := 0 }, frame_id := "camera_rgb" },
    height := 1, width := 2, encoding := "rgb8", is_bigendian := 0, step := 6,
    data := [10, 20, 30, 40, 50, 60] }

/-- A depth frame stamped `1.010 s`. -/
def sampleD : Image :=
  { header := { seq := 9, stamp := { sec := 1, nsec := 10000000 }, frame_id := "camera_depth" },
    height := 1, width := 2, encoding := "16UC1", is_bigendian := 0, step := 4,
    data := [1, 0, 2, 0] }

/-- A colour frame whose buffer is shorter than `height * step`. -/
def malformedRGB : Image := { sampleRGB with data := [10, 20, 30] }

/-- The decoded form of a well-formed image. -/
def sampleCv (m : Image) : CvImage :=
  { header := m.header, encoding := m.encoding,
    image := { rows := m.height, cols := m.width,
               elem := fun i j => m.data.getD (i * m.step + j) 0 } }

/-- A decoder that rejects a buffer whose length is not `height * step`. -/
def sampleDecoder (m : Image) : Except String CvImage :=
  if m.data.length = m.height * m.step then .ok (sampleCv m) else .error "malformed buffer"

/-- An environment whose engine answers every frame with `pose` and whose clock reads
`2.0000005 s`. -/
def sampleEnv (K : Type) (pose : Mat K) : Env K :=
  { toCvShare := sampleDecoder, TrackRGBD := fun _ _ _ => pose, now := { sec := 2, nsec := 500 } }

/-- The 4x4 identity transform. -/
def identityPose (K : Type) [Zero K] [One K] : Mat K :=
  { rows := 4, cols := 4, elem := fun i j => if i = j then 1 else 0 }

/-- The rotation by a third of a turn about the diagonal axis (the cyclic permutation of
the coordinate axes, of trace zero), with translation `(1, 2, 3)`. -/
def cyclicPose (K : Type) [Zero K] [One K] [OfNat K 2] [OfNat K 3] : Mat K :=
  { rows := 4, cols := 4,
    elem := fun i j =>
      match i, j with
      | 0, 2 => 1
      | 1, 0 => 1
      | 2, 1 => 1
      | 0, 3 => 1
      | 1, 3 => 2
      | 2, 3 => 3
      | 3, 3 => 1
      | _, _ => 0 }

/-- The sample environment whose engine tracks every frame to the identity pose. -/
def identityEnv (K : Type) [Zero K] [One K] : Env K := sampleEnv K (identityPose K)

/-- The sample environment whose engine tracks every frame to the cyclic pose. -/
def cyclicEnv (K : Type) [Zero K] [One K] [OfNat K 2] [OfNat K 3] : Env K :=
  sampleEnv K (cyclicPose K)

/-- The sample environment whose engine has no pose and returns the empty matrix. -/
def lostEnv (K : Type) [Zero K] : Env K := sampleEnv K (Mat.empty K)

/-- The conversion run on the rationals, with the rational square root (exact on the
squares of rationals). -/
def quaternionQ : Matrix3 ℚ → Quaternion ℚ := fromRotationMatrix Rat.sqrt

/-- A frame of stream `sid` captured at time `t`. -/
def frameAt (sid : StreamId) (t : ℚ) : Frame :=
  { stream_id := sid, timestamp := t, width := 2, height := 1, byte_stride := 6,
    pixel_encoding := "rgb8", endianness := false, raw_bytes := [10, 20, 30, 40, 50, 60] }

/-! ## Basic facts about the callback -/

theorem at_of_size {K : Type} (pose : Mat K) (hr : pose.rows = 4) (hc : pose.cols = 4)
    (i j : Nat) (hi : i < 4) (hj : j < 4) : pose.at i j = some (pose.elem i j) := by
  simp [Mat.at, hr, hc, hi, hj]

theorem readRotation_of_size {K : Type} (pose : Mat K) (hr : pose.rows = 4)
    (hc : pose.cols = 4) : readRotation pose = some (upperLeft3 pose) := by
  simp only [readRotation, at_of_size pose hr hc, Nat.reduceLT, Option.bind_eq_bind,
    Option.some_bind, Option.pure_def, Option.some.injEq, Nat.ofNat_pos]
  funext i j
  fin_cases i <;> fin_cases j <;> rfl

theorem toPoseStamped_of_size {K : Type} [Field K] (Quaternionf : Matrix3 K → Quaternion K)
    (pose : Mat K)
    (hr : pose.rows = 4) (hc : pose.cols = 4) :
    toPoseStamped Quaternionf pose = some (poseOf Quaternionf pose) := by
  simp [toPoseStamped, readRotation_of_size pose hr hc, at_of_size pose hr hc, poseOf,
    PoseStamped.init, Header.init, Quaternion.toMsg]

theorem toPoseStamped_empty {K : Type} [Field K] (Quaternionf : Matrix3 K → Quaternion K)
    (pose : Mat K)
    (hr : pose.rows = 0) : toPoseStamped Quaternionf pose = none := by
  simp [toPoseStamped, readRotation, Mat.at, hr]

/-- The value of a call on which both frames decode and the engine returns a matrix
without rows: the pose is read although it has no element. -/
theorem GrabRGBD_empty_pose {K : Type} [Field K] (Quaternionf : Matrix3 K → Quaternion K)
    (env : Env K) (msgRGB msgD : Image) (cv_ptrRGB cv_ptrD : CvImage)
    (hRGB : env.toCvShare msgRGB = .ok cv_ptrRGB) (hD : env.toCvShare msgD = .ok cv_ptrD)
    (hr : (env.TrackRGBD cv_ptrRGB.image cv_ptrD.image cv_ptrRGB.header.stamp.toSec).rows = 0) :
    GrabRGBD Quaternionf env msgRGB msgD =
      .undefinedRead [.track cv_ptrRGB.image cv_ptrD.image cv_ptrRGB.header.stamp.toSec] := by
  simp only [GrabRGBD, hRGB, hD, toPoseStamped_empty Quaternionf _ hr]

/-- The value of a call on which both frames decode and the engine returns a 4x4 pose. -/
theorem GrabRGBD_tracked {K : Type} [Field K] (Quaternionf : Matrix3 K → Quaternion K)
    (env : Env K)
    (msgRGB msgD : Image) (cv_ptrRGB cv_ptrD : CvImage)
    (hRGB : env.toCvShare msgRGB = .ok cv_ptrRGB) (hD : env.toCvShare msgD = .ok cv_ptrD)
    (hr : (env.TrackRGBD cv_ptrRGB.image cv_ptrD.image cv_ptrRGB.header.stamp.toSec).rows = 4)
    (hc : (env.TrackRGBD cv_ptrRGB.image cv_ptrD.image cv_ptrRGB.header.stamp.toSec).cols = 4) :
    GrabRGBD Quaternionf env msgRGB msgD =
      .returned
        [.track cv_ptrRGB.image cv_ptrD.image cv_ptrRGB.header.stamp.toSec,
         .pose_pub
           { poseOf Quaternionf
               (env.TrackRGBD cv_ptrRGB.image cv_ptrD.image cv_ptrRGB.header.stamp.toSec) with
             header := { seq := 0, stamp := env.now, frame_id := "odom" } },
         .rgb_pub { msgRGB with header := { seq := 0, stamp := env.now, frame_id := "odom" } },
         .depth_pub { msgD with header := { seq := 0, stamp := env.now, frame_id := "odom" } }] :=
    by
  simp [GrabRGBD, hRGB, hD, toPoseStamped_of_size Quaternionf _ hr hc, passthrough, Image.init,
    Header.init, poseOf]

theorem toPoseStamped_header {K : Type} [Field K] (Quaternionf : Matrix3 K → Quaternion K)
    (pose : Mat K)
    (psd : PoseStamped K) (h : toPoseStamped Quaternionf pose = some psd) :
    psd.header = { seq := 0, stamp := { sec := 0, nsec := 0 }, frame_id := "odom" } := by
  simp only [toPoseStamped, Option.bind_eq_bind, Option.pure_def, Option.bind_eq_some,
    Option.some.injEq] at h
  obtain ⟨_, _, _, _, _, _, _, _, h⟩ := h
  rw [← h]
  rfl

/-- Every call that publishes returned normally with exactly the tracking call followed
by one message per channel, the images being copies with a fresh header and all three
headers carrying the clock value. -/
theorem publishes_shape {K : Type} [Field K] (Quaternionf : Matrix3 K → Quaternion K)
    (env : Env K)
    (msgRGB msgD : Image) (h : Publishes (GrabRGBD Quaternionf env msgRGB msgD)) :
    ∃ (c : Effect K) (p : PoseStamped K),
      GrabRGBD Quaternionf env msgRGB msgD =
        .returned
          [c, .pose_pub p,
           .rgb_pub { msgRGB with header := { seq := 0, stamp := env.now, frame_id := "odom" } },
           .depth_pub { msgD with header := { seq := 0, stamp := env.now, frame_id := "odom" } }]
      ∧ trackCalls [c] = 1 ∧ p.header = { seq := 0, stamp := env.now, frame_id := "odom" } := by
  unfold Publishes GrabRGBD at h
  unfold GrabRGBD
  cases hRGB : env.toCvShare msgRGB with
  | error e => simp [hRGB, Outcome.trace, posesOf, rgbOf, depthOf] at h
  | ok cv_ptrRGB =>
    cases hD : env.toCvShare msgD with
    | error e => simp [hRGB, hD, Outcome.trace, posesOf, rgbOf, depthOf] at h
    | ok cv_ptrD =>
      simp only [hRGB, hD] at h ⊢
      cases hp : toPoseStamped Quaternionf
          (env.TrackRGBD cv_ptrRGB.image cv_ptrD.image cv_ptrRGB.header.stamp.toSec) with
      | none => simp [hp, Outcome.trace, posesOf, rgbOf, depthOf] at h
      | some psd =>
        have hh := toPoseStamped_header Quaternionf _ psd hp
        refine ⟨.track cv_ptrRGB.image cv_ptrD.image cv_ptrRGB.header.stamp.toSec,
          { psd with header := { psd.header with stamp := env.now } }, rfl, rfl, ?_⟩
        simp [hh]

/-! ## Rotation matrices and the conversion to a quaternion -/

section Algebra
variable {K : Type} [LinearOrderedField K]

/-- A polynomial identity behind `adj R = Rᵀ` for rotations. -/
theorem cofactor_identity (R : Matrix3 K) (i j : Fin 3) :
    R i j - (R (i + 1) (j + 1) * R (i + 2) (j + 2) - R (i + 1) (j + 2) * R (i + 2) (j + 1)) =
      (R (i + 1) 1 * R (i + 2) 2 - R (i + 1) 2 * R (i + 2) 1)
          * (R 0 0 * R 0 j + R 1 0 * R 1 j + R 2 0 * R 2 j - (if (0 : Fin 3) = j then 1 else 0))
        + (R (i + 1) 2 * R (i + 2) 0 - R (i + 1) 0 * R (i + 2) 2)
          * (R 0 1 * R 0 j + R 1 1 * R 1 j + R 2 1 * R 2 j - (if (1 : Fin 3) = j then 1 else 0))
        + (R (i + 1) 0 * R (i + 2) 1 - R (i + 1) 1 * R (i + 2) 0)
          * (R 0 2 * R 0 j + R 1 2 * R 1 j + R 2 2 * R 2 j - (if (2 : Fin 3) = j then 1 else 0))
        - (det3 R - 1) * R i j := by
  fin_cases i <;> fin_cases j <;> simp [det3] <;> ring

/-- Every entry of a rotation equals its cofactor. -/
theorem IsRotation.cofactor {R : Matrix3 K} (h : IsRotation R) (i j : Fin 3) :
    R i j = R (i + 1) (j + 1) * R (i + 2) (j + 2) - R (i + 1) (j + 2) * R (i + 2) (j + 1) := by
  have key := cofactor_identity R i j
  rw [h.1 0 j, h.1 1 j, h.1 2 j, h.2] at key
  simpa [sub_eq_zero] using key

theorem rows_identity (R : Matrix3 K) (i j : Fin 3) :
    R i 0 * R j 0 + R i 1 * R j 1 + R i 2 * R j 2 - (if i = j then 1 else 0) =
      R i 0 * (R j 0 - (R (j + 1) 1 * R (j + 2) 2 - R (j + 1) 2 * R (j + 2) 1))
        + R i 1 * (R j 1 - (R (j + 1) 2 * R (j + 2) 0 - R (j + 1) 0 * R (j + 2) 2))
        + R i 2 * (R j 2 - (R (j + 1) 0 * R (j + 2) 1 - R (j + 1) 1 * R (j + 2) 0))
        + (det3 R - 1) * (if i = j then 1 else 0) := by
  fin_cases i <;> fin_cases j <;> simp [det3] <;> ring

/-- The rows of a rotation are orthonormal as well. -/
theorem IsRotation.rows {R : Matrix3 K} (h : IsRotation R) (i j : Fin 3) :
    R i 0 * R j 0 + R i 1 * R j 1 + R i 2 * R j 2 = if i = j then 1 else 0 := by
  have key := rows_identity R i j
  have c0 := h.cofactor j 0
  have c1 := h.cofactor j 1
  have c2 := h.cofactor j 2
  simp only [zero_add, show (1 : Fin 3) + 1 = 2 from rfl, show (1 : Fin 3) + 2 = 0 from rfl,
    show (2 : Fin 3) + 1 = 0 from rfl, show (2 : Fin 3) + 2 = 1 from rfl] at c0 c1 c2
  rw [← c0, ← c1, ← c2, h.2] at key
  simpa [sub_eq_zero] using key

set_option maxHeartbeats 4000000 in
/-- For a rotation, `outer4 R` has rank one: all 2x2 minors through a diagonal entry vanish. -/
theorem IsRotation.minors {R : Matrix3 K} (h : IsRotation R) (p a b : Fin 4) :
    outer4 R p a * outer4 R p b = outer4 R p p * outer4 R a b := by
  have c := h.cofactor
  have r := h.rows
  have o := h.1
  have c00 := c 0 0; have c01 := c 0 1; have c02 := c 0 2
  have c10 := c 1 0; have c11 := c 1 1; have c12 := c 1 2
  have c20 := c 2 0; have c21 := c 2 1; have c22 := c 2 2
  have r00 := r 0 0; have r01 := r 0 1; have r02 := r 0 2
  have r11 := r 1 1; have r12 := r 1 2; have r22 := r 2 2
  have o00 := o 0 0; have o01 := o 0 1; have o02 := o 0 2
  have o11 := o 1 1; have o12 := o 1 2; have o22 := o 2 2
  simp at c00 c01 c02 c10 c11 c12 c20 c21 c22 r00 r01 r02 r11 r12 r22 o00 o01 o02 o11 o12 o22
  clear c r o h
  fin_cases p <;> fin_cases a <;> fin_cases b <;> simp only [outer4] <;> linarith

/-- Whatever branch the conversion takes, it selects a pivot coefficient `p` with
`outer4 R p p ≥ 1`, sets that coefficient to half the square root of the pivot entry and
every other coefficient to the matching entry of row `p` divided by twice that root. -/
theorem fromRotationMatrix_pivot (sqrt : K → K) (R : Matrix3 K) :
    ∃ p : Fin 4, 1 ≤ outer4 R p p ∧
      (fromRotationMatrix sqrt R).coeff p = (1 / 2) * sqrt (outer4 R p p) ∧
      ∀ a, a ≠ p →
        (fromRotationMatrix sqrt R).coeff a = outer4 R p a * ((1 / 2) / sqrt (outer4 R p p)) := by
  have e12 : (1 : Fin 3) + 1 = 2 := rfl
  have e21 : (2 : Fin 3) + 1 = 0 := rfl
  by_cases ht : 0 < R 0 0 + R 1 1 + R 2 2
  · refine ⟨3, by simp only [outer4]; linarith, ?_, fun a ha => ?_⟩
    · simp only [fromRotationMatrix, ht, if_true, Quaternion.coeff, outer4]
      ring_nf
    · fin_cases a <;> first
        | exact absurd rfl ha
        | (simp only [fromRotationMatrix, ht, if_true, Quaternion.coeff, outer4]; ring_nf)
  · by_cases h1 : R 0 0 < R 1 1
    · by_cases h2 : R 1 1 < R 2 2
      · refine ⟨2, by simp only [outer4]; linarith, ?_, fun a ha => ?_⟩
        · simp only [fromRotationMatrix, ht, h1, h2, if_true, if_false, Quaternion.coeff, outer4,
            Quaternion.setCoeff, e12, e21, zero_add]
          ring_nf
        · fin_cases a <;> first
            | exact absurd rfl ha
            | (simp only [fromRotationMatrix, ht, h1, h2, if_true, if_false, Quaternion.coeff,
                outer4, Quaternion.setCoeff, e12, e21, zero_add]; ring_nf)
      · refine ⟨1, by simp only [outer4]; linarith, ?_, fun a ha => ?_⟩
        · simp only [fromRotationMatrix, ht, h1, h2, if_true, if_false, Quaternion.coeff, outer4,
            Quaternion.setCoeff, e12, e21, zero_add]
          ring_nf
        · fin_cases a <;> first
            | exact absurd rfl ha
            | (simp only [fromRotationMatrix, ht, h1, h2, if_true, if_false, Quaternion.coeff,
                outer4, Quaternion.setCoeff, e12, e21, zero_add]; ring_nf)
    · by_cases h2 : R 0 0 < R 2 2
      · refine ⟨2, by simp only [outer4]; linarith, ?_, fun a ha => ?_⟩
        · simp only [fromRotationMatrix, ht, h1, h2, if_true, if_false, Quaternion.coeff, outer4,
            Quaternion.setCoeff, e12, e21, zero_add]
          ring_nf
        · fin_cases a <;> first
            | exact absurd rfl ha
            | (simp only [fromRotationMatrix, ht, h1, h2, if_true, if_false, Quaternion.coeff,
                outer4, Quaternion.setCoeff, e12, e21, zero_add]; ring_nf)
      · refine ⟨0, by simp only [outer4]; linarith, ?_, fun a ha => ?_⟩
        · simp only [fromRotationMatrix, ht, h1, h2, if_true, if_false, Quaternion.coeff, outer4,
            Quaternion.setCoeff, e12, e21, zero_add]
          ring_nf
        · fin_cases a <;> first
            | exact absurd rfl ha
            | (simp only [fromRotationMatrix, ht, h1, h2, if_true, if_false, Quaternion.coeff,
                outer4, Quaternion.setCoeff, e12, e21, zero_add]; ring_nf)

/-- The products of the coefficients of the converted quaternion are the entries of
`outer4 R` divided by four. -/
theorem fromRotationMatrix_outer (sqrt : K → K) (hs : ExactSqrt sqrt) (R : Matrix3 K)
    (hR : IsRotation R) (a b : Fin 4) :
    4 * ((fromRotationMatrix sqrt R).coeff a * (fromRotationMatrix sqrt R).coeff b)
      = outer4 R a b := by
  obtain ⟨p, hp, hpp, hpa⟩ := fromRotationMatrix_pivot sqrt R
  obtain ⟨hpos, hsq⟩ := hs (outer4 R p p) (by linarith)
  have hne : sqrt (outer4 R p p) ≠ 0 := ne_of_gt hpos
  have hall : ∀ c, (fromRotationMatrix sqrt R).coeff c
      = outer4 R p c * ((1 / 2) / sqrt (outer4 R p p)) := by
    intro c
    by_cases hc : c = p
    · subst hc
      rw [hpp]
      field_simp
      linear_combination 2 * hsq
    · exact hpa c hc
  rw [hall a, hall b]
  have hm := hR.minors p a b
  field_simp
  linear_combination 4 * hm - 4 * outer4 R a b * hsq

/-- The converted quaternion of a rotation has unit norm. -/
theorem fromRotationMatrix_normSq (sqrt : K → K) (hs : ExactSqrt sqrt) (R : Matrix3 K)
    (hR : IsRotation R) : (fromRotationMatrix sqrt R).normSq = 1 := by
  have o := fromRotationMatrix_outer sqrt hs R hR
  have o0 := o 0 0; have o1 := o 1 1; have o2 := o 2 2; have o3 := o 3 3
  simp only [Quaternion.coeff, outer4] at o0 o1 o2 o3
  simp only [Quaternion.normSq]
  linarith

/-- The rotation matrix of the converted quaternion is the matrix converted. -/
theorem toRotationMatrix_fromRotationMatrix (sqrt : K → K) (hs : ExactSqrt sqrt)
    (R : Matrix3 K) (hR : IsRotation R) :
    toRotationMatrix (fromRotationMatrix sqrt R) = R := by
  have o := fromRotationMatrix_outer sqrt hs R hR
  have o00 := o 0 0; have o11 := o 1 1; have o22 := o 2 2; have o33 := o 3 3
  have o01 := o 0 1; have o02 := o 0 2; have o12 := o 1 2
  have o30 := o 3 0; have o31 := o 3 1; have o32 := o 3 2
  simp only [Quaternion.coeff, outer4] at o00 o11 o22 o33 o01 o02 o12 o30 o31 o32
  funext i j
  fin_cases i <;> fin_cases j <;>
    simp only [toRotationMatrix, Fin.zero_eta, Fin.mk_one, Fin.reduceFinMk] <;> linarith

theorem four_squares_eq_zero (a b c d : K) (h : a * a + b * b + c * c + d * d = 0) :
    a = 0 ∧ b = 0 ∧ c = 0 ∧ d = 0 := by
  have ha := mul_self_nonneg a
  have hb := mul_self_nonneg b
  have hc := mul_self_nonneg c
  have hd := mul_self_nonneg d
  refine ⟨?_, ?_, ?_, ?_⟩ <;> apply mul_self_eq_zero.mp <;> linarith

/-- Two unit quaternions with the same rotation matrix are equal or opposite. -/
theorem eq_or_neg_of_toRotationMatrix_eq (p q : Quaternion K) (hp : p.normSq = 1)
    (hq : q.normSq = 1) (h : toRotationMatrix q = toRotationMatrix p) :
    q = p ∨ q = p.neg := by
  have e := fun i j => congrFun (congrFun h i) j
  have e00 := e 0 0; have e01 := e 0 1; have e02 := e 0 2
  have e10 := e 1 0; have e11 := e 1 1; have e12 := e 1 2
  have e20 := e 2 0; have e21 := e 2 1; have e22 := e 2 2
  simp only [toRotationMatrix] at e00 e01 e02 e10 e11 e12 e20 e21 e22
  simp only [Quaternion.normSq] at hp hq
  obtain ⟨px, py, pz, pw⟩ := p
  obtain ⟨qx, qy, qz, qw⟩ := q
  simp only at e00 e01 e02 e10 e11 e12 e20 e21 e22 hp hq
  have hxx : qx * qx = px * px := by linarith
  have hyy : qy * qy = py * py := by linarith
  have hzz : qz * qz = pz * pz := by linarith
  have hww : qw * qw = pw * pw := by linarith
  have hxy : qx * qy = px * py := by linarith
  have hxz : qx * qz = px * pz := by linarith
  have hyz : qy * qz = py * pz := by linarith
  have hwx : qw * qx = pw * px := by linarith
  have hwy : qw * qy = pw * py := by linarith
  have hwz : qw * qz = pw * pz := by linarith
  have hdot : (qx * px + qy * py + qz * pz + qw * pw) * (qx * px + qy * py + qz * pz + qw * pw)
      = 1 := by
    have : (qx * px + qy * py + qz * pz + qw * pw) * (qx * px + qy * py + qz * pz + qw * pw)
        = (pw * pw + px * px + py * py + pz * pz) * (pw * pw + px * px + py * py + pz * pz) := by
      linear_combination (px * px) * hxx + (py * py) * hyy + (pz * pz) * hzz + (pw * pw) * hww
        + 2 * (px * py) * hxy + 2 * (px * pz) * hxz + 2 * (py * pz) * hyz
        + 2 * (pw * px) * hwx + 2 * (pw * py) * hwy + 2 * (pw * pz) * hwz
    rw [this, hp, one_mul]
  have hcases : qx * px + qy * py + qz * pz + qw * pw = 1
      ∨ qx * px + qy * py + qz * pz + qw * pw = -1 := by
    have : (qx * px + qy * py + qz * pz + qw * pw - 1)
        * (qx * px + qy * py + qz * pz + qw * pw + 1) = 0 := by linear_combination hdot
    rcases mul_eq_zero.mp this with h1 | h1
    · left; linarith
    · right; linarith
  rcases hcases with hc | hc
  · left
    have hs : (qx - px) * (qx - px) + (qy - py) * (qy - py) + (qz - pz) * (qz - pz)
        + (qw - pw) * (qw - pw) = 0 := by linear_combination hp + hq - 2 * hc
    obtain ⟨hx, hy, hz, hw⟩ := four_squares_eq_zero _ _ _ _ hs
    have ex : qx = px := by linarith
    have ey : qy = py := by linarith
    have ez : qz = pz := by linarith
    have ew : qw = pw := by linarith
    rw [ex, ey, ez, ew]
  · right
    have hs : (qx + px) * (qx + px) + (qy + py) * (qy + py) + (qz + pz) * (qz + pz)
        + (qw + pw) * (qw + pw) = 0 := by linear_combination hp + hq + 2 * hc
    obtain ⟨hx, hy, hz, hw⟩ := four_squares_eq_zero _ _ _ _ hs
    have ex : qx = -px := by linarith
    have ey : qy = -py := by linarith
    have ez : qz = -pz := by linarith
    have ew : qw = -pw := by linarith
    rw [ex, ey, ez, ew]
    rfl

/-- The rotation matrix of the axis-angle quaternion is the axis-angle matrix of the
doubled angle. -/
theorem toRotationMatrix_axisAngleQuaternion (ch sh : K) (u : Fin 3 → K)
    (hu : u 0 * u 0 + u 1 * u 1 + u 2 * u 2 = 1) (hh : ch * ch + sh * sh = 1) :
    toRotationMatrix (axisAngleQuaternion ch sh u)
      = axisAngleMatrix (ch * ch - sh * sh) (2 * sh * ch) u := by
  funext i j
  fin_cases i <;> fin_cases j <;>
    simp only [toRotationMatrix, axisAngleMatrix, axisAngleQuaternion, Fin.zero_eta, Fin.mk_one,
      Fin.reduceFinMk]
  · linear_combination (-2 * sh * sh) * hu + (u 0 * u 0 - 1) * hh
  · linear_combination (u 0 * u 1) * hh
  · linear_combination (u 0 * u 2) * hh
  · linear_combination (u 1 * u 0) * hh
  · linear_combination (-2 * sh * sh) * hu + (u 1 * u 1 - 1) * hh
  · linear_combination (u 1 * u 2) * hh
  · linear_combination (u 2 * u 0) * hh
  · linear_combination (u 2 * u 1) * hh
  · linear_combination (-2 * sh * sh) * hu + (u 2 * u 2 - 1) * hh

/-- The axis-angle quaternion of a unit axis has unit norm. -/
theorem axisAngleQuaternion_normSq (ch sh : K) (u : Fin 3 → K)
    (hu : u 0 * u 0 + u 1 * u 1 + u 2 * u 2 = 1) (hh : ch * ch + sh * sh = 1) :
    (axisAngleQuaternion ch sh u).normSq = 1 := by
  simp only [Quaternion.normSq, axisAngleQuaternion]
  linear_combination (sh * sh) * hu + hh

/-- The rotation matrix of a unit quaternion is a proper rotation. -/
theorem isRotation_toRotationMatrix (q : Quaternion K) (hq : q.normSq = 1) :
    IsRotation (toRotationMatrix q) := by
  simp only [Quaternion.normSq] at hq
  constructor
  · intro i j
    fin_cases i <;> fin_cases j <;>
      simp only [toRotationMatrix, Fin.zero_eta, Fin.mk_one, Fin.reduceFinMk, if_true]
    · linear_combination (4 * q.y * q.y + 4 * q.z * q.z) * hq
    · simp only [Fin.isValue, zero_ne_one, if_false]
      linear_combination (-4 * q.x * q.y) * hq
    · simp only [Fin.isValue, (by decide : (0 : Fin 3) ≠ 2), if_false]
      linear_combination (-4 * q.x * q.z) * hq
    · simp only [Fin.isValue, one_ne_zero, if_false]
      linear_combination (-4 * q.x * q.y) * hq
    · linear_combination (4 * q.x * q.x + 4 * q.z * q.z) * hq
    · simp only [Fin.isValue, (by decide : (1 : Fin 3) ≠ 2), if_false]
      linear_combination (-4 * q.y * q.z) * hq
    · simp only [Fin.isValue, (by decide : (2 : Fin 3) ≠ 0), if_false]
      linear_combination (-4 * q.x * q.z) * hq
    · simp only [Fin.isValue, (by decide : (2 : Fin 3) ≠ 1), if_false]
      linear_combination (-4 * q.y * q.z) * hq
    · linear_combination (4 * q.x * q.x + 4 * q.y * q.y) * hq
  · simp only [det3, toRotationMatrix]
    linear_combination (4 * q.x * q.x + 4 * q.y * q.y + 4 * q.z * q.z) * hq

/-- Every axis-angle matrix of a unit axis is a proper rotation. -/
theorem isRotation_axisAngleMatrix (ch sh : K) (u : Fin 3 → K)
    (hu : u 0 * u 0 + u 1 * u 1 + u 2 * u 2 = 1) (hh : ch * ch + sh * sh = 1) :
    IsRotation (axisAngleMatrix (ch * ch - sh * sh) (2 * sh * ch) u) := by
  rw [← toRotationMatrix_axisAngleQuaternion ch sh u hu hh]
  exact isRotation_toRotationMatrix _ (axisAngleQuaternion_normSq ch sh u hu hh)

end Algebra

/-! ## The synchronizer keeps to its tolerance -/

theorem offer_within_tolerance (tolerance : ℚ) (depth : Nat) (st st1 : SyncState)
    (sid : StreamId) (f : Frame) (p : SynchronizedPair)
    (h : offer tolerance depth st sid f = (st1, some p)) :
    |p.frame_a.timestamp - p.frame_b.timestamp| ≤ tolerance := by
  unfold offer at h
  cases sid <;> simp only at h
  · cases hc : closest f.timestamp st.buffer_b with
    | none => simp [hc] at h
    | some g =>
      simp only [hc] at h
      split_ifs at h with ht
      · simp only [Prod.mk.injEq, Option.some.injEq] at h
        rw [← h.2]
        exact ht
      · simp at h
  · cases hc : closest f.timestamp st.buffer_a with
    | none => simp [hc] at h
    | some g =>
      simp only [hc] at h
      split_ifs at h with ht
      · simp only [Prod.mk.injEq, Option.some.injEq] at h
        rw [← h.2, abs_sub_comm]
        exact ht
      · simp at h

theorem runOffers_within_tolerance (tolerance : ℚ) (depth : Nat)
    (offers : List (StreamId × Frame)) :
    ∀ (st : SyncState) (p : SynchronizedPair), p ∈ runOffers tolerance depth st offers →
      |p.frame_a.timestamp - p.frame_b.timestamp| ≤ tolerance := by
  induction offers with
  | nil => intro st p hp; simp [runOffers] at hp
  | cons o rest ih =>
    intro st p hp
    obtain ⟨sid, f⟩ := o
    unfold runOffers at hp
    cases ho : offer tolerance depth st sid f with
    | mk st1 r =>
      cases r with
      | none =>
        simp only [ho] at hp
        exact ih st1 p hp
      | some p1 =>
        simp only [ho, List.mem_cons] at hp
        rcases hp with rfl | hp
        · exact offer_within_tolerance tolerance depth st st1 sid f p ho
        · exact ih st1 p hp

/-- C10: every pair the synchronizer emits, from any sequence of offers and with any
buffer depth (in particular the queue size 10 of `main`), has its two timestamps within
the tolerance; with a tolerance of 0.02 s a frame of stream A at 1.000 s and a frame of
stream B at 1.050 s are never emitted as a pair. -/
theorem C10_pairs_within_tolerance (tolerance : ℚ) (depth : Nat)
    (offers : List (StreamId × Frame)) (p : SynchronizedPair)
    (hp : p ∈ runOffers tolerance depth SyncState.init offers) :
    |p.frame_a.timestamp - p.frame_b.timestamp| ≤ tolerance ∧
      (tolerance = 1 / 50 → ¬ (p.frame_a.timestamp = 1 ∧ p.frame_b.timestamp = 21 / 20)) := by
  have h := runOffers_within_tolerance tolerance depth offers SyncState.init p hp
  refine ⟨h, ?_⟩
  rintro rfl ⟨ha, hb⟩
  rw [ha, hb] at h
  norm_num [abs_le] at h

/-- C10 at the first example scenario: A at 1.000 s, B at 1.010 s, tolerance 0.02 s. -/
theorem C10_pairs_within_tolerance_witness :
    ({ frame_a := frameAt .A 1, frame_b := frameAt .B (101 / 100), match_timestamp := 1 } :
        SynchronizedPair)
      ∈ runOffers (1 / 50) queueSize SyncState.init
          [(.A, frameAt .A 1), (.B, frameAt .B (101 / 100))] ∧
    (|(frameAt .A 1).timestamp - (frameAt .B (101 / 100)).timestamp| ≤ (1 / 50 : ℚ) ∧
      ((1 / 50 : ℚ) = 1 / 50 →
        ¬ ((frameAt .A 1).timestamp = 1 ∧ (frameAt .B (101 / 100)).timestamp = 21 / 20))) :=
  ⟨by decide!, C10_pairs_within_tolerance (1 / 50) queueSize
    [(.A, frameAt .A 1), (.B, frameAt .B (101 / 100))]
    { frame_a := frameAt .A 1, frame_b := frameAt .B (101 / 100), match_timestamp := 1 }
    (by decide!)⟩

/-! ## The claims about the callback -/

/-- C1 (the code at the failing input): both frames decode and the tracking engine
returns an empty matrix; the call makes its one tracking call and then, instead of
returning with nothing published, reads `pose.at<float>(0, 0)` outside the matrix. -/
theorem C1_empty_pose_is_read :
    GrabRGBD quaternionQ (lostEnv ℚ) sampleRGB sampleD
      = .undefinedRead [.track (sampleCv sampleRGB).image (sampleCv sampleD).image 1] := by
  have h : (sampleCv sampleRGB).header.stamp.toSec = (1 : ℚ) := by
    norm_num [sampleCv, sampleRGB, Time.toSec]
  rw [GrabRGBD_empty_pose quaternionQ (lostEnv ℚ) sampleRGB sampleD (sampleCv sampleRGB)
    (sampleCv sampleD) rfl rfl rfl, h]

/-- C2: when decoding of the colour frame or of the depth frame fails, the call returns
normally, makes no tracking call and publishes nothing on any of the three channels. -/
theorem C2_decode_failure_short_circuits {K : Type} [Field K]
    (Quaternionf : Matrix3 K → Quaternion K) (env : Env K) (msgRGB msgD : Image)
    (h : (∃ e, env.toCvShare msgRGB = .error e) ∨ (∃ e, env.toCvShare msgD = .error e)) :
    ∃ tr, GrabRGBD Quaternionf env msgRGB msgD = .returned tr ∧ trackCalls tr = 0 ∧
      posesOf tr = [] ∧ rgbOf tr = [] ∧ depthOf tr = [] := by
  unfold GrabRGBD
  cases hRGB : env.toCvShare msgRGB with
  | error e => exact ⟨_, rfl, rfl, rfl, rfl, rfl⟩
  | ok cv_ptrRGB =>
    cases hD : env.toCvShare msgD with
    | error e => exact ⟨_, rfl, rfl, rfl, rfl, rfl⟩
    | ok cv_ptrD =>
      rcases h with ⟨e, he⟩ | ⟨e, he⟩
      · rw [hRGB] at he; cases he
      · rw [hD] at he; cases he

/-- C2 at a colour frame whose buffer is too short for its size. -/
theorem C2_decode_failure_short_circuits_witness :
    ((∃ e, (identityEnv ℚ).toCvShare malformedRGB = .error e) ∨
      (∃ e, (identityEnv ℚ).toCvShare sampleD = .error e)) ∧
    ∃ tr, GrabRGBD quaternionQ (identityEnv ℚ) malformedRGB sampleD = .returned tr ∧
      trackCalls tr = 0 ∧ posesOf tr = [] ∧ rgbOf tr = [] ∧ depthOf tr = [] :=
  ⟨Or.inl ⟨"malformed buffer", rfl⟩,
   C2_decode_failure_short_circuits quaternionQ (identityEnv ℚ) malformedRGB sampleD
     (Or.inl ⟨"malformed buffer", rfl⟩)⟩

/-- C3 fails as stated: a colour frame stamped 1.000 s, decoded and tracked while the
clock reads 2.0000005 s, is published with the clock value on all three channels, not
with the timestamp of the colour frame. -/
theorem C3_counterexample :
    ¬ (∀ p ∈ posesOf (GrabRGBD quaternionQ (identityEnv ℚ) sampleRGB sampleD).trace,
        p.header.stamp = sampleRGB.header.stamp) ∧
    ¬ (∀ r ∈ rgbOf (GrabRGBD quaternionQ (identityEnv ℚ) sampleRGB sampleD).trace,
        r.header.stamp = sampleRGB.header.stamp) ∧
    ¬ (∀ d ∈ depthOf (GrabRGBD quaternionQ (identityEnv ℚ) sampleRGB sampleD).trace,
        d.header.stamp = sampleRGB.header.stamp) := by
  refine ⟨?_, ?_, ?_⟩ <;> decide

/-- C3 as amended: when both frames decode and the engine returns a 4x4 pose, the call
publishes one message per channel and each carries the clock value read during the
call (`ros::Time::now()`), whatever the timestamps of the incoming frames. -/
theorem C3_stamp_is_clock {K : Type} [Field K]
    (Quaternionf : Matrix3 K → Quaternion K) (env : Env K)
    (msgRGB msgD : Image) (cv_ptrRGB cv_ptrD : CvImage)
    (hRGB : env.toCvShare msgRGB = .ok cv_ptrRGB) (hD : env.toCvShare msgD = .ok cv_ptrD)
    (hr : (env.TrackRGBD cv_ptrRGB.image cv_ptrD.image cv_ptrRGB.header.stamp.toSec).rows = 4)
    (hc : (env.TrackRGBD cv_ptrRGB.image cv_ptrD.image cv_ptrRGB.header.stamp.toSec).cols = 4) :
    ∃ p r d, posesOf (GrabRGBD Quaternionf env msgRGB msgD).trace = [p] ∧
      rgbOf (GrabRGBD Quaternionf env msgRGB msgD).trace = [r] ∧
      depthOf (GrabRGBD Quaternionf env msgRGB msgD).trace = [d] ∧
      p.header.stamp = env.now ∧ r.header.stamp = env.now ∧ d.header.stamp = env.now := by
  rw [GrabRGBD_tracked Quaternionf env msgRGB msgD cv_ptrRGB cv_ptrD hRGB hD hr hc]
  exact ⟨_, _, _, rfl, rfl, rfl, rfl, rfl, rfl⟩

/-- C3 as amended, at the sample pair and the identity pose. -/
theorem C3_stamp_is_clock_witness :
    ((identityEnv ℚ).toCvShare sampleRGB = .ok (sampleCv sampleRGB) ∧
      (identityEnv ℚ).toCvShare sampleD = .ok (sampleCv sampleD) ∧
      ((identityEnv ℚ).TrackRGBD (sampleCv sampleRGB).image (sampleCv sampleD).image
        (sampleCv sampleRGB).header.stamp.toSec).rows = 4 ∧
      ((identityEnv ℚ).TrackRGBD (sampleCv sampleRGB).image (sampleCv sampleD).image
        (sampleCv sampleRGB).header.stamp.toSec).cols = 4) ∧
    ∃ p r d,
      posesOf (GrabRGBD quaternionQ (identityEnv ℚ) sampleRGB sampleD).trace = [p] ∧
      rgbOf (GrabRGBD quaternionQ (identityEnv ℚ) sampleRGB sampleD).trace = [r] ∧
      depthOf (GrabRGBD quaternionQ (identityEnv ℚ) sampleRGB sampleD).trace = [d] ∧
      p.header.stamp = (identityEnv ℚ).now ∧
      r.header.stamp = (identityEnv ℚ).now ∧
      d.header.stamp = (identityEnv ℚ).now :=
  ⟨⟨rfl, rfl, rfl, rfl⟩,
   C3_stamp_is_clock quaternionQ (identityEnv ℚ) sampleRGB sampleD
     (sampleCv sampleRGB) (sampleCv sampleD) rfl rfl rfl rfl⟩

/-- C4: a call that publishes emits exactly three messages, one pose, one colour image
and one depth image, and their header timestamps are pairwise equal. -/
theorem C4_coherent_timestamp {K : Type} [Field K]
    (Quaternionf : Matrix3 K → Quaternion K) (env : Env K)
    (msgRGB msgD : Image) (h : Publishes (GrabRGBD Quaternionf env msgRGB msgD)) :
    ∃ p r d, posesOf (GrabRGBD Quaternionf env msgRGB msgD).trace = [p] ∧
      rgbOf (GrabRGBD Quaternionf env msgRGB msgD).trace = [r] ∧
      depthOf (GrabRGBD Quaternionf env msgRGB msgD).trace = [d] ∧
      p.header.stamp = r.header.stamp ∧ r.header.stamp = d.header.stamp ∧
      p.header.stamp = d.header.stamp := by
  obtain ⟨c, p, hg, hc, hp⟩ := publishes_shape Quaternionf env msgRGB msgD h
  rw [hg]
  cases c with
  | track a b t =>
    refine ⟨p, _, _, rfl, rfl, rfl, ?_, rfl, ?_⟩ <;> rw [hp]
  | _ => simp [trackCalls] at hc

/-- C4 at the sample pair and the identity pose. -/
theorem C4_coherent_timestamp_witness :
    Publishes (GrabRGBD quaternionQ (identityEnv ℚ) sampleRGB sampleD) ∧
    ∃ p r d,
      posesOf (GrabRGBD quaternionQ (identityEnv ℚ) sampleRGB sampleD).trace = [p] ∧
      rgbOf (GrabRGBD quaternionQ (identityEnv ℚ) sampleRGB sampleD).trace = [r] ∧
      depthOf (GrabRGBD quaternionQ (identityEnv ℚ) sampleRGB sampleD).trace = [d] ∧
      p.header.stamp = r.header.stamp ∧ r.header.stamp = d.header.stamp ∧
      p.header.stamp = d.header.stamp :=
  ⟨Or.inr (Or.inl (by decide)),
   C4_coherent_timestamp quaternionQ (identityEnv ℚ) sampleRGB sampleD
     (Or.inr (Or.inl (by decide)))⟩

/-- C7: when both frames decode and the engine returns a 4x4 pose `P`, the published
pose has position `(P[0][3], P[1][3], P[2][3])`, whatever the rotation block, and the
frame id `"odom"`. -/
theorem C7_translation_copied {K : Type} [Field K]
    (Quaternionf : Matrix3 K → Quaternion K) (env : Env K)
    (msgRGB msgD : Image) (cv_ptrRGB cv_ptrD : CvImage) (P : Mat K)
    (hRGB : env.toCvShare msgRGB = .ok cv_ptrRGB) (hD : env.toCvShare msgD = .ok cv_ptrD)
    (hP : env.TrackRGBD cv_ptrRGB.image cv_ptrD.image cv_ptrRGB.header.stamp.toSec = P)
    (hr : P.rows = 4) (hc : P.cols = 4) :
    ∃ p, posesOf (GrabRGBD Quaternionf env msgRGB msgD).trace = [p] ∧
      p.pose.position = { x := P.elem 0 3, y := P.elem 1 3, z := P.elem 2 3 } ∧
      p.header.frame_id = "odom" := by
  subst hP
  rw [GrabRGBD_tracked Quaternionf env msgRGB msgD cv_ptrRGB cv_ptrD hRGB hD hr hc]
  exact ⟨_, rfl, rfl, rfl⟩

/-- C7 at the sample pair and a pose with translation `(1, 2, 3)`. -/
theorem C7_translation_copied_witness :
    ((cyclicEnv ℚ).toCvShare sampleRGB = .ok (sampleCv sampleRGB) ∧
      (cyclicEnv ℚ).toCvShare sampleD = .ok (sampleCv sampleD) ∧
      (cyclicEnv ℚ).TrackRGBD (sampleCv sampleRGB).image (sampleCv sampleD).image
        (sampleCv sampleRGB).header.stamp.toSec = cyclicPose ℚ ∧
      (cyclicPose ℚ).rows = 4 ∧ (cyclicPose ℚ).cols = 4) ∧
    ∃ p, posesOf (GrabRGBD quaternionQ (cyclicEnv ℚ) sampleRGB sampleD).trace = [p] ∧
      p.pose.position = { x := (cyclicPose ℚ).elem 0 3, y := (cyclicPose ℚ).elem 1 3,
                          z := (cyclicPose ℚ).elem 2 3 } ∧
      p.header.frame_id = "odom" :=
  ⟨⟨rfl, rfl, rfl, rfl, rfl⟩,
   C7_translation_copied quaternionQ (cyclicEnv ℚ) sampleRGB sampleD
     (sampleCv sampleRGB) (sampleCv sampleD) (cyclicPose ℚ) rfl rfl rfl rfl rfl⟩

/-- C9: in a call that publishes, the outgoing colour and depth messages are the incoming
`msgRGB` and `msgD` with a new header only: the fields `data`, `encoding`, `height`,
`width`, `step` and `is_bigendian` are equal, the frame id is `"odom"` and the timestamp
is the clock value.  The incoming messages are values the call cannot modify. -/
theorem C9_passthrough_header_only {K : Type} [Field K]
    (Quaternionf : Matrix3 K → Quaternion K) (env : Env K) (msgRGB msgD : Image)
    (h : Publishes (GrabRGBD Quaternionf env msgRGB msgD)) :
    ∃ r d, rgbOf (GrabRGBD Quaternionf env msgRGB msgD).trace = [r] ∧
      depthOf (GrabRGBD Quaternionf env msgRGB msgD).trace = [d] ∧
      (r.data = msgRGB.data ∧ r.encoding = msgRGB.encoding ∧ r.height = msgRGB.height ∧
        r.width = msgRGB.width ∧ r.step = msgRGB.step ∧
        r.is_bigendian = msgRGB.is_bigendian) ∧
      (d.data = msgD.data ∧ d.encoding = msgD.encoding ∧ d.height = msgD.height ∧
        d.width = msgD.width ∧ d.step = msgD.step ∧ d.is_bigendian = msgD.is_bigendian) ∧
      r.header.frame_id = "odom" ∧ d.header.frame_id = "odom" ∧
      r.header.stamp = env.now ∧ d.header.stamp = env.now ∧
      r = { msgRGB with header := r.header } ∧ d = { msgD with header := d.header } := by
  obtain ⟨c, p, hg, hc, hp⟩ := publishes_shape Quaternionf env msgRGB msgD h
  rw [hg]
  cases c with
  | track a b t =>
    exact ⟨_, _, rfl, rfl, ⟨rfl, rfl, rfl, rfl, rfl, rfl⟩, ⟨rfl, rfl, rfl, rfl, rfl, rfl⟩,
      rfl, rfl, rfl, rfl, rfl, rfl⟩
  | _ => simp [trackCalls] at hc

/-- C9 at the sample pair and the identity pose. -/
theorem C9_passthrough_header_only_witness :
    Publishes (GrabRGBD quaternionQ (identityEnv ℚ) sampleRGB sampleD) ∧
    ∃ r d, rgbOf (GrabRGBD quaternionQ (identityEnv ℚ) sampleRGB sampleD).trace = [r] ∧
      depthOf (GrabRGBD quaternionQ (identityEnv ℚ) sampleRGB sampleD).trace = [d] ∧
      (r.data = sampleRGB.data ∧ r.encoding = sampleRGB.encoding ∧
        r.height = sampleRGB.height ∧
        r.width = sampleRGB.width ∧ r.step = sampleRGB.step ∧
        r.is_bigendian = sampleRGB.is_bigendian) ∧
      (d.data = sampleD.data ∧ d.encoding = sampleD.encoding ∧ d.height = sampleD.height ∧
        d.width = sampleD.width ∧ d.step = sampleD.step ∧
        d.is_bigendian = sampleD.is_bigendian) ∧
      r.header.frame_id = "odom" ∧ d.header.frame_id = "odom" ∧
      r.header.stamp = (identityEnv ℚ).now ∧
      d.header.stamp = (identityEnv ℚ).now ∧
      r = { sampleRGB with header := r.header } ∧ d = { sampleD with header := d.header } :=
  ⟨Or.inl (by decide),
   C9_passthrough_header_only quaternionQ (identityEnv ℚ) sampleRGB sampleD
     (Or.inl (by decide))⟩

/-! ## The claims about the published orientation -/

/-- The real square root is exact on the positive reals. -/
theorem exactSqrt_real : ExactSqrt Real.sqrt := fun _ hx =>
  ⟨Real.sqrt_pos.mpr hx, Real.mul_self_sqrt (le_of_lt hx)⟩

/-- The upper-left block of the cyclic sample pose is a proper rotation. -/
theorem isRotation_cyclicPose : IsRotation (upperLeft3 (cyclicPose ℝ)) := by
  constructor
  · intro i j
    fin_cases i <;> fin_cases j <;> simp [upperLeft3, cyclicPose]
  · simp [det3, upperLeft3, cyclicPose]

/-- C5: when both frames decode and the engine returns a 4x4 pose whose upper-left 3x3
block is a proper rotation, the orientation `(w, x, y, z)` of the published pose has norm
exactly one over the reals, in whichever of the four branches the conversion takes; so
the norm is within `1e-6` of one. -/
theorem C5_unit_quaternion (env : Env ℝ) (msgRGB msgD : Image) (cv_ptrRGB cv_ptrD : CvImage)
    (P : Mat ℝ)
    (hRGB : env.toCvShare msgRGB = .ok cv_ptrRGB) (hD : env.toCvShare msgD = .ok cv_ptrD)
    (hP : env.TrackRGBD cv_ptrRGB.image cv_ptrD.image cv_ptrRGB.header.stamp.toSec = P)
    (hr : P.rows = 4) (hc : P.cols = 4) (hR : IsRotation (upperLeft3 P)) :
    ∃ p, posesOf (GrabRGBD (fromRotationMatrix Real.sqrt) env msgRGB msgD).trace = [p] ∧
      Real.sqrt (p.pose.orientation.w ^ 2 + p.pose.orientation.x ^ 2
        + p.pose.orientation.y ^ 2 + p.pose.orientation.z ^ 2) = 1 ∧
      |Real.sqrt (p.pose.orientation.w ^ 2 + p.pose.orientation.x ^ 2
        + p.pose.orientation.y ^ 2 + p.pose.orientation.z ^ 2) - 1| ≤ 1 / 1000000 := by
  subst hP
  rw [GrabRGBD_tracked (fromRotationMatrix Real.sqrt) env msgRGB msgD cv_ptrRGB cv_ptrD hRGB hD
    hr hc]
  refine ⟨_, rfl, ?_⟩
  have hn := fromRotationMatrix_normSq Real.sqrt exactSqrt_real _ hR
  simp only [Quaternion.normSq] at hn
  have hs : Real.sqrt ((fromRotationMatrix Real.sqrt (upperLeft3 (env.TrackRGBD cv_ptrRGB.image
      cv_ptrD.image cv_ptrRGB.header.stamp.toSec))).w ^ 2
      + (fromRotationMatrix Real.sqrt (upperLeft3 (env.TrackRGBD cv_ptrRGB.image
      cv_ptrD.image cv_ptrRGB.header.stamp.toSec))).x ^ 2
      + (fromRotationMatrix Real.sqrt (upperLeft3 (env.TrackRGBD cv_ptrRGB.image
      cv_ptrD.image cv_ptrRGB.header.stamp.toSec))).y ^ 2
      + (fromRotationMatrix Real.sqrt (upperLeft3 (env.TrackRGBD cv_ptrRGB.image
      cv_ptrD.image cv_ptrRGB.header.stamp.toSec))).z ^ 2) = 1 := by
    rw [show _ ^ 2 + _ ^ 2 + _ ^ 2 + _ ^ 2 = (1 : ℝ) by rw [← hn]; ring]
    exact Real.sqrt_one
  simp only [poseOf, Quaternion.toMsg]
  rw [hs]
  norm_num

/-- C5 at the sample pair and the cyclic pose, which takes a dominant-diagonal branch. -/
theorem C5_unit_quaternion_witness :
    ((cyclicEnv ℝ).toCvShare sampleRGB = .ok (sampleCv sampleRGB) ∧
      (cyclicEnv ℝ).toCvShare sampleD = .ok (sampleCv sampleD) ∧
      (cyclicEnv ℝ).TrackRGBD (sampleCv sampleRGB).image (sampleCv sampleD).image
        (sampleCv sampleRGB).header.stamp.toSec = cyclicPose ℝ ∧
      (cyclicPose ℝ).rows = 4 ∧ (cyclicPose ℝ).cols = 4 ∧
      IsRotation (upperLeft3 (cyclicPose ℝ))) ∧
    ∃ p, posesOf (GrabRGBD (fromRotationMatrix Real.sqrt) (cyclicEnv ℝ) sampleRGB sampleD).trace
        = [p] ∧
      Real.sqrt (p.pose.orientation.w ^ 2 + p.pose.orientation.x ^ 2
        + p.pose.orientation.y ^ 2 + p.pose.orientation.z ^ 2) = 1 ∧
      |Real.sqrt (p.pose.orientation.w ^ 2 + p.pose.orientation.x ^ 2
        + p.pose.orientation.y ^ 2 + p.pose.orientation.z ^ 2) - 1| ≤ 1 / 1000000 :=
  ⟨⟨rfl, rfl, rfl, rfl, rfl, isRotation_cyclicPose⟩,
   C5_unit_quaternion (cyclicEnv ℝ) sampleRGB sampleD (sampleCv sampleRGB)
     (sampleCv sampleD) (cyclicPose ℝ) rfl rfl rfl rfl rfl isRotation_cyclicPose⟩

/-- C6: when both frames decode and the engine returns a 4x4 pose whose upper-left 3x3
block `R` is a proper rotation, the rotation matrix rebuilt from the published
orientation is `R`; and whenever `R` is the rotation about a unit axis `u` by an angle
`θ`, the published orientation is the axis-angle quaternion
`(cos (θ/2), sin (θ/2) u)` or its opposite. -/
theorem C6_rotation_round_trip (env : Env ℝ) (msgRGB msgD : Image)
    (cv_ptrRGB cv_ptrD : CvImage) (P : Mat ℝ)
    (hRGB : env.toCvShare msgRGB = .ok cv_ptrRGB) (hD : env.toCvShare msgD = .ok cv_ptrD)
    (hP : env.TrackRGBD cv_ptrRGB.image cv_ptrD.image cv_ptrRGB.header.stamp.toSec = P)
    (hr : P.rows = 4) (hc : P.cols = 4) (hR : IsRotation (upperLeft3 P)) :
    ∃ p, posesOf (GrabRGBD (fromRotationMatrix Real.sqrt) env msgRGB msgD).trace = [p] ∧
      toRotationMatrix p.pose.orientation.toQuaternion = upperLeft3 P ∧
      ∀ (θ : ℝ) (u : Fin 3 → ℝ), u 0 * u 0 + u 1 * u 1 + u 2 * u 2 = 1 →
        upperLeft3 P = axisAngleMatrix (Real.cos θ) (Real.sin θ) u →
        p.pose.orientation.toQuaternion
            = axisAngleQuaternion (Real.cos (θ / 2)) (Real.sin (θ / 2)) u ∨
          p.pose.orientation.toQuaternion
            = (axisAngleQuaternion (Real.cos (θ / 2)) (Real.sin (θ / 2)) u).neg := by
  subst hP
  rw [GrabRGBD_tracked (fromRotationMatrix Real.sqrt) env msgRGB msgD cv_ptrRGB cv_ptrD hRGB hD
    hr hc]
  refine ⟨_, rfl, ?_, ?_⟩
  · exact toRotationMatrix_fromRotationMatrix Real.sqrt exactSqrt_real _ hR
  · intro θ u hu hθ
    have hh : Real.cos (θ / 2) * Real.cos (θ / 2) + Real.sin (θ / 2) * Real.sin (θ / 2) = 1 :=
      by
      have := Real.cos_sq_add_sin_sq (θ / 2)
      nlinarith [this]
    have hcos : Real.cos θ
        = Real.cos (θ / 2) * Real.cos (θ / 2) - Real.sin (θ / 2) * Real.sin (θ / 2) := by
      have h2 := Real.cos_two_mul (θ / 2)
      have h1 := Real.cos_sq_add_sin_sq (θ / 2)
      rw [show 2 * (θ / 2) = θ by ring] at h2
      nlinarith [h1, h2]
    have hsin : Real.sin θ = 2 * Real.sin (θ / 2) * Real.cos (θ / 2) := by
      have h2 := Real.sin_two_mul (θ / 2)
      rw [show 2 * (θ / 2) = θ by ring] at h2
      exact h2
    apply eq_or_neg_of_toRotationMatrix_eq
    · exact axisAngleQuaternion_normSq _ _ u hu hh
    · exact fromRotationMatrix_normSq Real.sqrt exactSqrt_real _ hR
    · rw [toRotationMatrix_axisAngleQuaternion _ _ u hu hh, ← hcos, ← hsin, ← hθ]
      exact toRotationMatrix_fromRotationMatrix Real.sqrt exactSqrt_real _ hR

/-- C6 at the sample pair and the cyclic pose. -/
theorem C6_rotation_round_trip_witness :
    ((cyclicEnv ℝ).toCvShare sampleRGB = .ok (sampleCv sampleRGB) ∧
      (cyclicEnv ℝ).toCvShare sampleD = .ok (sampleCv sampleD) ∧
      (cyclicEnv ℝ).TrackRGBD (sampleCv sampleRGB).image (sampleCv sampleD).image
        (sampleCv sampleRGB).header.stamp.toSec = cyclicPose ℝ ∧
      (cyclicPose ℝ).rows = 4 ∧ (cyclicPose ℝ).cols = 4 ∧
      IsRotation (upperLeft3 (cyclicPose ℝ))) ∧
    ∃ p, posesOf (GrabRGBD (fromRotationMatrix Real.sqrt) (cyclicEnv ℝ) sampleRGB sampleD).trace
        = [p] ∧
      toRotationMatrix p.pose.orientation.toQuaternion = upperLeft3 (cyclicPose ℝ) ∧
      ∀ (θ : ℝ) (u : Fin 3 → ℝ), u 0 * u 0 + u 1 * u 1 + u 2 * u 2 = 1 →
        upperLeft3 (cyclicPose ℝ) = axisAngleMatrix (Real.cos θ) (Real.sin θ) u →
        p.pose.orientation.toQuaternion
            = axisAngleQuaternion (Real.cos (θ / 2)) (Real.sin (θ / 2)) u ∨
          p.pose.orientation.toQuaternion
            = (axisAngleQuaternion (Real.cos (θ / 2)) (Real.sin (θ / 2)) u).neg :=
  ⟨⟨rfl, rfl, rfl, rfl, rfl, isRotation_cyclicPose⟩,
   C6_rotation_round_trip (cyclicEnv ℝ) sampleRGB sampleD (sampleCv sampleRGB)
     (sampleCv sampleD) (cyclicPose ℝ) rfl rfl rfl rfl rfl isRotation_cyclicPose⟩

/-- C8: when both frames decode and the engine returns the 4x4 identity transform, a pose
is published, with orientation `(w, x, y, z) = (1, 0, 0, 0)` and position `(0, 0, 0)`. -/
theorem C8_identity_pose (env : Env ℝ) (msgRGB msgD : Image) (cv_ptrRGB cv_ptrD : CvImage)
    (P : Mat ℝ)
    (hRGB : env.toCvShare msgRGB = .ok cv_ptrRGB) (hD : env.toCvShare msgD = .ok cv_ptrD)
    (hP : env.TrackRGBD cv_ptrRGB.image cv_ptrD.image cv_ptrRGB.header.stamp.toSec = P)
    (hr : P.rows = 4) (hc : P.cols = 4)
    (hid : ∀ i j, i < 4 → j < 4 → P.elem i j = if i = j then 1 else 0) :
    ∃ p, posesOf (GrabRGBD (fromRotationMatrix Real.sqrt) env msgRGB msgD).trace = [p] ∧
      p.pose.orientation = { w := 1, x := 0, y := 0, z := 0 } ∧
      p.pose.position = { x := 0, y := 0, z := 0 } := by
  subst hP
  rw [GrabRGBD_tracked (fromRotationMatrix Real.sqrt) env msgRGB msgD cv_ptrRGB cv_ptrD hRGB hD
    hr hc]
  refine ⟨_, rfl, ?_, ?_⟩
  · have h4 : Real.sqrt (1 + 1 + 1 + 1) = 2 := by
      rw [show (1 + 1 + 1 + 1 : ℝ) = 2 ^ 2 by norm_num]
      exact Real.sqrt_sq (by norm_num)
    have h3 : (0 : ℝ) < 1 + 1 + 1 := by norm_num
    simp [poseOf, Quaternion.toMsg, fromRotationMatrix, upperLeft3, hid, h4, h3]
  · simp [poseOf, hid]

/-- C8 at the sample pair. -/
theorem C8_identity_pose_witness :
    ((identityEnv ℝ).toCvShare sampleRGB = .ok (sampleCv sampleRGB) ∧
      (identityEnv ℝ).toCvShare sampleD = .ok (sampleCv sampleD) ∧
      (identityEnv ℝ).TrackRGBD (sampleCv sampleRGB).image
        (sampleCv sampleD).image (sampleCv sampleRGB).header.stamp.toSec = identityPose ℝ ∧
      (identityPose ℝ).rows = 4 ∧ (identityPose ℝ).cols = 4 ∧
      ∀ i j, i < 4 → j < 4 → (identityPose ℝ).elem i j = if i = j then 1 else 0) ∧
    ∃ p,
      posesOf (GrabRGBD (fromRotationMatrix Real.sqrt) (identityEnv ℝ) sampleRGB sampleD).trace
        = [p] ∧
      p.pose.orientation = { w := 1, x := 0, y := 0, z := 0 } ∧
      p.pose.position = { x := 0, y := 0, z := 0 } :=
  ⟨⟨rfl, rfl, rfl, rfl, rfl, fun _ _ _ _ => rfl⟩,
   C8_identity_pose (identityEnv ℝ) sampleRGB sampleD (sampleCv sampleRGB)
     (sampleCv sampleD) (identityPose ℝ) rfl rfl rfl rfl rfl (fun _ _ _ _ => rfl)⟩

end RosRgbd
